import Mathlib

/-!
# Verification of the jup-hedge multi-transaction orchestration engine

This file gives a shallow embedding, in Lean 4, of the core logic of the
jup-hedge repository: the sequential transaction executor
(`src/utils/sequential-executor.ts`), the Jito bundle pipeline
(the `useAtomicSwapShort` bundle hook and the `src/utils/jito.ts` version
with pre-submission validation), the compatibility guard
(`isJitoCompatible`), the base64 round-trip checker
(`verifyTransactionBase64` in `src/utils/jupiter_swap.ts`), and the swap
builder (`buildJupiterSwapTransaction`).

External collaborators (the Solana RPC connection, the wallet signing
capability, the Jito relay, the Jupiter API, the Drift SDK) are modelled as
explicit environments supplying the outcome of each external call; fallible
calls yield `Except String` values.  The `@solana/web3.js` transaction wire
format is modelled at the byte level: a transaction serializes to a
compact-u16 signature count, the 64-byte signatures, and the message bytes.
Numbers that are JavaScript floats in the source are modelled as `ℚ`.
Bytes are `Nat` values, with validity (`< 256`) carried as hypotheses where
it matters.

The file is organised as definitions first (the embedding), then theorems
(helper lemmas, then one theorem per verified claim, with witnesses).
-/

namespace JupHedge

/-! ## Compact-u16 (shortvec) length prefix

Model of the `@solana/web3.js` shortvec encoding used for the signature
count at the front of a serialized `VersionedTransaction`: little-endian
7-bit groups, high bit set on every byte except the last. -/

/-- The shortvec encoding loop, with explicit fuel (structural recursion,
so that concrete transactions evaluate); `encodeCompactU16` supplies
enough fuel for any value. -/
def encodeCompactU16Aux : Nat → Nat → List Nat
  | 0, _ => []
  | fuel + 1, n =>
    if n < 128 then [n]
    else (n % 128 + 128) :: encodeCompactU16Aux fuel (n / 128)

/-- Encode a natural number in the Solana shortvec (compact-u16) format. -/
def encodeCompactU16 (n : Nat) : List Nat := encodeCompactU16Aux (n + 1) n

/-- Decode a shortvec prefix, returning the value and the unconsumed tail. -/
def decodeCompactU16 : List Nat → Option (Nat × List Nat)
  | [] => none
  | b :: rest =>
    if b < 128 then some (b, rest)
    else match decodeCompactU16 rest with
      | some (m, r) => some (b - 128 + m * 128, r)
      | none => none

/-! ## Base64

Model of Node's `Buffer.from(bytes).toString('base64')` and
`Buffer.from(string, 'base64')`, used by the relay client and the
round-trip checkers. -/

/-- The base64 alphabet character for a sextet. -/
def b64Char (n : Nat) : Char :=
  ("ABCDEFGHIJKLMNOPQRSTUVWXYZabcdefghijklmnopqrstuvwxyz0123456789+/".toList).getD n 'A'

/-- The sextet value of a base64 alphabet character, `none` for other
characters. -/
def b64Index (c : Char) : Option Nat :=
  if 65 ≤ c.toNat ∧ c.toNat ≤ 90 then some (c.toNat - 65)
  else if 97 ≤ c.toNat ∧ c.toNat ≤ 122 then some (c.toNat - 97 + 26)
  else if 48 ≤ c.toNat ∧ c.toNat ≤ 57 then some (c.toNat - 48 + 52)
  else if c = '+' then some 62
  else if c = '/' then some 63
  else none

/-- Base64-encode a byte list, with `=` padding. -/
def b64Encode : List Nat → List Char
  | [] => []
  | [a] => [b64Char (a / 4), b64Char (a % 4 * 16), '=', '=']
  | [a, b] => [b64Char (a / 4), b64Char (a % 4 * 16 + b / 16), b64Char (b % 16 * 4), '=']
  | a :: b :: d :: rest =>
    b64Char (a / 4) :: b64Char (a % 4 * 16 + b / 16) ::
    b64Char (b % 16 * 4 + d / 64) :: b64Char (d % 64) :: b64Encode rest

/-- Base64-decode a character list, `none` on malformed input. -/
def b64Decode : List Char → Option (List Nat)
  | [] => some []
  | w :: x :: y :: z :: rest =>
    match b64Index w, b64Index x with
    | some dw, some dx =>
      if y = '=' then
        if z = '=' ∧ rest = [] then some [dw * 4 + dx / 16] else none
      else
        match b64Index y with
        | some dy =>
          if z = '=' then
            if rest = [] then some [dw * 4 + dx / 16, dx % 16 * 16 + dy / 4] else none
          else
            match b64Index z with
            | some dz =>
              (b64Decode rest).map
                (fun t => (dw * 4 + dx / 16) :: (dx % 16 * 16 + dy / 4) ::
                  (dy % 4 * 64 + dz) :: t)
            | none => none
        | none => none
    | _, _ => none
  | _ => none

/-! ## JSON values

Model of the JSON values exchanged with the relay (bundle status payloads,
on-chain error objects) and of `JSON.stringify`, which the executors use to
render on-chain error payloads into result messages. -/

/-- A JSON value. -/
inductive Json where
  | null : Json
  | bool (b : Bool) : Json
  | num (n : Int) : Json
  | str (s : String) : Json
  | arr (elems : List Json) : Json
  | obj (fields : List (String × Json)) : Json

/-- Decimal digit character. -/
def digitChar (n : Nat) : Char := Char.ofNat (48 + n)

/-- The decimal digits of a natural number, least significant first. -/
def natToRevDigits (n : Nat) : List Char :=
  if h : n < 10 then [digitChar n]
  else digitChar (n % 10) :: natToRevDigits (n / 10)
decreasing_by exact Nat.div_lt_self (by omega) (by omega)

/-- Model of JavaScript integer-to-string conversion. -/
def intToString (n : Int) : String :=
  if n < 0 then "-" ++ String.mk (natToRevDigits n.natAbs).reverse
  else String.mk (natToRevDigits n.natAbs).reverse

/-- Model of JSON string escaping (quote and backslash). -/
def jsonEscape (s : String) : String :=
  String.mk (s.data.flatMap fun c => if c = '"' ∨ c = '\\' then ['\\', c] else [c])

/-- Model of `JSON.stringify` on JSON values. -/
def jsonStringify : Json → String
  | .null => "null"
  | .bool true => "true"
  | .bool false => "false"
  | .num n => intToString n
  | .str s => "\"" ++ jsonEscape s ++ "\""
  | .arr elems =>
    "[" ++ String.intercalate ","
      (elems.attach.map fun e => jsonStringify e.1) ++ "]"
  | .obj fields =>
    "\x7b" ++ String.intercalate ","
      (fields.attach.map fun f =>
        "\"" ++ jsonEscape f.1.1 ++ "\":" ++ jsonStringify f.1.2) ++ "\x7d"
decreasing_by
  · simp_wf
    have := List.sizeOf_lt_of_mem e.2
    omega
  · simp_wf
    rcases f with ⟨⟨s, j⟩, hf⟩
    have := List.sizeOf_lt_of_mem hf
    simp only [Prod.mk.sizeOf_spec] at this ⊢
    omega

/-! ## Transactions

Model of `@solana/web3.js` `VersionedTransaction`: a list of 64-byte
signatures and a message.  The message's serialized byte content is carried
as a field (`bytes`), alongside the structured views the repository's code
reads (`version`, `recentBlockhash`, `addressTableLookups`). -/

/-- Message version: `'legacy'` or `0` in the source. -/
inductive MsgVersion where
  | legacy : MsgVersion
  | v0 : MsgVersion
deriving DecidableEq

/-- One address-lookup-table reference of a v0 message. -/
structure AddressTableLookup where
  accountKey : String
  writableIndexes : List Nat
  readonlyIndexes : List Nat
deriving DecidableEq

/-- A versioned message: the structured views read by the repository's code
plus its serialized byte content. -/
structure VersionedMessage where
  version : MsgVersion
  recentBlockhash : String
  addressTableLookups : List AddressTableLookup
  bytes : List Nat
deriving DecidableEq

/-- Model of `message.serialize()`. -/
def VersionedMessage.serialize (m : VersionedMessage) : List Nat := m.bytes

/-- A versioned transaction: signatures plus message. -/
structure VersionedTransaction where
  signatures : List (List Nat)
  message : VersionedMessage
deriving DecidableEq

/-- Model of `transaction.serialize()`: compact-u16 signature count, the
signatures, then the message bytes. -/
def VersionedTransaction.serialize (tx : VersionedTransaction) : List Nat :=
  encodeCompactU16 tx.signatures.length ++ tx.signatures.flatten ++ tx.message.bytes

/-- Split a flat byte list into `n` signatures of 64 bytes each. -/
def sigChunks : Nat → List Nat → List (List Nat)
  | 0, _ => []
  | n + 1, l => l.take 64 :: sigChunks n (l.drop 64)

/-- Model of `VersionedTransaction.deserialize`: parse the signature
section, keep the remaining bytes as the message content.  The message
version is read off the head byte as in the wire format (high bit set means
v0).  The other structured views of a freshly parsed message
(`recentBlockhash`, the lookup list) are not reconstructed by this model;
no verified property observes them on a deserialized value — the
round-trip properties compare byte content. -/
def VersionedTransaction.deserialize (bytes : List Nat) : Option VersionedTransaction :=
  match decodeCompactU16 bytes with
  | none => none
  | some (n, rest) =>
    if n * 64 ≤ rest.length then
      some { signatures := sigChunks n (rest.take (n * 64))
             message :=
               { version := if 128 ≤ ((rest.drop (n * 64)).headD 0) then .v0 else .legacy
                 recentBlockhash := ""
                 addressTableLookups := []
                 bytes := rest.drop (n * 64) } }
    else none

/-- A well-formed transaction object: 64-byte signatures, byte-valued
content. -/
def ValidTx (tx : VersionedTransaction) : Prop :=
  (∀ s ∈ tx.signatures, s.length = 64 ∧ ∀ b ∈ s, b < 256) ∧
  ∀ b ∈ tx.message.bytes, b < 256

instance (tx : VersionedTransaction) : Decidable (ValidTx tx) := by
  unfold ValidTx
  infer_instance

/-! ## Compatibility guard and round-trip checker -/

/-- Result of the `isJitoCompatible` guard. -/
structure CompatResult where
  compatible : Bool
  reason : Option String
deriving DecidableEq

/-- Embedding of `isJitoCompatible` (`src/utils/jito.ts`): size ceiling,
address-lookup-table check, then a base64 round-trip.  The guard only
classifies; it is a pure function of the transaction (the source reads the
transaction and builds a fresh result object, mutating nothing). -/
def isJitoCompatible (tx : VersionedTransaction) : CompatResult :=
  let serialized := tx.serialize
  if 1232 < serialized.length then
    { compatible := false
      reason := some ("Transaction size (" ++ toString serialized.length ++
        " bytes) exceeds 1232 byte limit") }
  else if tx.message.version = .v0 ∧ tx.message.addressTableLookups ≠ [] then
    { compatible := false, reason := some "Transaction uses Address Lookup Tables" }
  else
    match b64Decode (b64Encode serialized) with
    | none => { compatible := false, reason := some "Serialization error: decode failed" }
    | some decoded =>
      match VersionedTransaction.deserialize decoded with
      | none =>
        { compatible := false, reason := some "Serialization error: deserialize failed" }
      | some _ => { compatible := true, reason := none }

/-- Result of `verifyTransactionBase64`. -/
structure VerifyResult where
  isValid : Bool
  base64 : List Char
  byteLength : Nat
deriving DecidableEq

/-- Embedding of `verifyTransactionBase64` (`src/utils/jupiter_swap.ts`):
serialize, base64-encode, decode, deserialize, and compare the restored
message bytes with the original's. -/
def verifyTransactionBase64 (tx : VersionedTransaction) : VerifyResult :=
  let serialized := tx.serialize
  let base64 := b64Encode serialized
  match b64Decode base64 with
  | none => { isValid := false, base64 := [], byteLength := 0 }
  | some decoded =>
    match VersionedTransaction.deserialize decoded with
    | none => { isValid := false, base64 := [], byteLength := 0 }
    | some restored =>
      { isValid := restored.message.serialize == tx.message.serialize
        base64 := base64
        byteLength := serialized.length }

/-! ## Sequential executor

Embedding of `executeTransactionsSequentially`
(`src/utils/sequential-executor.ts`).  The RPC connection and the wallet
are an environment keyed by the builder index; each fallible external call
is an `Except String` value.  The progress callback is a pure observer in
the source (it receives read-only snapshots) and is not modelled. -/

/-- Per-slot execution status (`TransactionExecutionStatus`). -/
inductive TransactionExecutionStatus where
  | pending
  | building
  | signing
  | submitting
  | confirming
  | confirmed
  | failed
deriving DecidableEq

/-- Progress ledger entry for one builder slot. -/
structure TransactionProgress where
  index : Nat
  name : String
  status : TransactionExecutionStatus
  signature : Option String
  error : Option String
deriving DecidableEq

/-- Result of a sequential run. -/
structure SequentialExecutionResult where
  success : Bool
  transactions : List TransactionProgress
  error : Option String
  failedAtIndex : Option Nat
deriving DecidableEq

/-- A lazy transaction builder; `build` is the outcome of invoking it. -/
structure TransactionToBuild where
  name : String
  build : Except String VersionedTransaction

/-- Environment for one sequential run: outcome of each external call,
keyed by the builder index at which it is made. -/
structure SeqEnv where
  sign : Nat → VersionedTransaction → Except String VersionedTransaction
  sendRawTransaction : Nat → List Nat → Except String String
  getLatestBlockhash : Nat → Except String (String × Nat)
  confirmTransaction : Nat → String → String × Nat → Except String (Option Json)

/-- One iteration of the sequential loop: build, sign, submit, fetch the
confirmation blockhash, confirm, check the on-chain error — folding the
source's per-iteration try/catch into a final ledger entry for slot `i`. -/
def runStep (env : SeqEnv) (i : Nat) (b : TransactionToBuild) : TransactionProgress :=
  match b.build with
  | .error e =>
    { index := i, name := b.name, status := .failed, signature := none, error := some e }
  | .ok tx =>
    match env.sign i tx with
    | .error e =>
      { index := i, name := b.name, status := .failed, signature := none, error := some e }
    | .ok signedTx =>
      match env.sendRawTransaction i signedTx.serialize with
      | .error e =>
        { index := i, name := b.name, status := .failed, signature := none, error := some e }
      | .ok signature =>
        match env.getLatestBlockhash i with
        | .error e =>
          { index := i, name := b.name, status := .failed, signature := some signature
            error := some e }
        | .ok bh =>
          match env.confirmTransaction i signature bh with
          | .error e =>
            { index := i, name := b.name, status := .failed, signature := some signature
              error := some e }
          | .ok (some err) =>
            { index := i, name := b.name, status := .failed, signature := some signature
              error := some ("Transaction failed on-chain: " ++ jsonStringify err) }
          | .ok none =>
            { index := i, name := b.name, status := .confirmed, signature := some signature
              error := none }

/-- The initial all-`pending` progress ledger, one entry per builder. -/
def initialProgress (builders : List TransactionToBuild) : List TransactionProgress :=
  builders.enum.map fun p =>
    { index := p.1, name := p.2.name, status := .pending, signature := none, error := none }

/-- The main loop of `executeTransactionsSequentially`: run each remaining
builder in order, record its final entry, stop at the first slot that does
not confirm. -/
def seqLoop (env : SeqEnv) :
    List TransactionToBuild → Nat → List TransactionProgress → SequentialExecutionResult
  | [], _, results =>
    { success := true, transactions := results, error := none, failedAtIndex := none }
  | b :: rest, i, results =>
    let entry := runStep env i b
    let results1 := results.set i entry
    if entry.status = .confirmed then seqLoop env rest (i + 1) results1
    else
      { success := false, transactions := results1, error := entry.error
        failedAtIndex := some i }

/-- Embedding of `executeTransactionsSequentially`. -/
def executeTransactionsSequentially (env : SeqEnv) (builders : List TransactionToBuild) :
    SequentialExecutionResult :=
  seqLoop env builders 0 (initialProgress builders)

/-! ## Relay client and bundle confirmation

Embedding of the `src/utils/jito.ts` version with pre-submission
validation (the `useAtomicSwapShort` bundle hook imports this module). -/

/-- Result of a bundle run. -/
structure JitoBundleResult where
  bundleId : String
  success : Bool
  error : Option String
deriving DecidableEq

/-- Relay-side bundle status, as observed from the two poll endpoints. -/
structure BundleStatus where
  bundle_id : String
  transactions : List String
  slot : Nat
  confirmation_status : String
  err : Option Json

/-- JavaScript truthiness of a JSON value, for the `status.err` check. -/
def jsTruthy : Json → Bool
  | .null => false
  | .bool b => b
  | .num n => n ≠ 0
  | .str s => s ≠ ""
  | .arr _ => true
  | .obj _ => true

/-- Environment for bundle-status polling: the outcome of each endpoint
call keyed by the poll-tick index, plus the network time each tick takes
beyond the fixed sleeps. -/
structure PollEnv where
  getBundleStatuses : Nat → Except String (List (Option BundleStatus))
  getInflightBundleStatuses : Nat → Except String (List (Option BundleStatus))
  netDelay : Nat → Nat

/-- One poll tick of `waitForBundleConfirmation`: fetch both status
endpoints (an exception from either is caught and the tick yields
nothing), then inspect `statuses[0]`: terminal confirmation, truthy
on-chain error, or nothing. -/
def pollTickOutcome (env : PollEnv) (bundleId : String) (k : Nat) : Option JitoBundleResult :=
  match env.getBundleStatuses k with
  | .error _ => none
  | .ok statuses =>
    match env.getInflightBundleStatuses k with
    | .error _ => none
    | .ok _ =>
      match statuses.headD none with
      | none => none
      | some status =>
        if status.confirmation_status = "confirmed" ∨ status.confirmation_status = "finalized" then
          some { bundleId := bundleId, success := true, error := none }
        else
          match status.err with
          | some e =>
            if jsTruthy e then
              some { bundleId := bundleId, success := false, error := some (jsonStringify e) }
            else none
          | none => none

/-- The polling loop of `waitForBundleConfirmation`: while elapsed time is
below `timeoutMs`, run a tick; each iteration consumes the two fixed
sleeps (1000 ms mid-tick, `pollIntervalMs` at the end) plus network
delay.  On timeout, the distinct timeout result. -/
def waitLoop (env : PollEnv) (bundleId : String) (timeoutMs pollIntervalMs : Nat)
    (k elapsed : Nat) : JitoBundleResult :=
  if _h : elapsed < timeoutMs then
    match pollTickOutcome env bundleId k with
    | some r => r
    | none =>
      waitLoop env bundleId timeoutMs pollIntervalMs (k + 1)
        (elapsed + 1000 + pollIntervalMs + env.netDelay k)
  else { bundleId := bundleId, success := false, error := some "Bundle confirmation timeout" }
termination_by timeoutMs - elapsed
decreasing_by omega

/-- Embedding of `waitForBundleConfirmation`. -/
def waitForBundleConfirmation (env : PollEnv) (bundleId : String)
    (timeoutMs pollIntervalMs : Nat) : JitoBundleResult :=
  waitLoop env bundleId timeoutMs pollIntervalMs 0 0

/-- Events observable at the external boundaries of the bundle pipeline:
a batch signing request reaching the wallet, and a `sendBundle` request
reaching the relay. -/
inductive BundleEvent where
  | signRequested (txs : List VersionedTransaction)
  | bundleSubmitted (txs : List VersionedTransaction)
deriving DecidableEq

/-- The pre-submission validation loop of `submitAndConfirmBundle`: first
oversized or lookup-table-bearing transaction yields its error message. -/
def validateBundle : Nat → List VersionedTransaction → Option String
  | _, [] => none
  | i, tx :: rest =>
    if 1232 < tx.serialize.length then
      some ("Transaction " ++ toString i ++ " exceeds size limit (" ++
        toString tx.serialize.length ++ " > 1232 bytes)")
    else if tx.message.version = .v0 ∧ tx.message.addressTableLookups ≠ [] then
      some ("Transaction " ++ toString i ++ " uses Address Lookup Tables which Jito does not support")
    else validateBundle (i + 1) rest

/-- Environment for the relay client: the outcome of the `sendBundle`
JSON-RPC call given the base64-encoded transactions (both an axios-level
failure and a `data.error` response surface as a thrown message), plus the
polling environment. -/
structure RelayEnv where
  sendBundleResp : List (List Char) → Except String String
  poll : PollEnv

/-- Embedding of `submitAndConfirmBundle`: validate every transaction,
submit the batch (base64-encoded) as one bundle, then wait for
confirmation; the surrounding try/catch folds any thrown message into a
failure result.  The second component records the externally visible
submission request. -/
def submitAndConfirmBundle (env : RelayEnv) (transactions : List VersionedTransaction)
    (timeoutMs : Nat) : JitoBundleResult × List BundleEvent :=
  match validateBundle 0 transactions with
  | some msg => ({ bundleId := "", success := false, error := some msg }, [])
  | none =>
    let encoded := transactions.map fun tx => b64Encode tx.serialize
    match env.sendBundleResp encoded with
    | .error e =>
      ({ bundleId := "", success := false, error := some e }, [.bundleSubmitted transactions])
    | .ok bundleId =>
      (waitForBundleConfirmation env.poll bundleId timeoutMs 2000,
        [.bundleSubmitted transactions])

/-! ## Jupiter swap builder

Embedding of `src/utils/jupiter_swap.ts`: price fetch, policy-derived
minimum-output calculation, quote, swap-transaction fetch, and the
builder-side lookup-table/size validation. -/

/-- The `TOKEN_ADDRESS` mint table (`src/types/index.ts`); an unknown
ticker yields `none` (`undefined` in the source). -/
def TOKEN_ADDRESS : String → Option String
  | "SOL" => some "So11111111111111111111111111111111111111112"
  | "USDC" => some "EPjFWdd5AufqSSqeM2qN1xzybapC8G4wEGGkZwyTDt1v"
  | "JUP" => some "JUPyiwrYJFskUPiHa7hkeR8VUtAeFoSYbKedZNsDvCN"
  | _ => none

/-- Policy constant: minimum JUP output. -/
def MINIMUM_JUP_OUTPUT : ℚ := 250

/-- Policy constant: 5% buffer. -/
def BUFFER_PERCENTAGE : ℚ := 105 / 100

/-- A Jupiter quote request, with the fixed options the source sets. -/
structure QuoteRequest where
  inputMint : String
  outputMint : String
  amount : Int
  slippageBps : Nat
  maxAccounts : Nat
  onlyDirectRoutes : Bool
deriving DecidableEq

/-- A Jupiter quote response; only the field the code reads. -/
structure QuoteResponse where
  outAmount : Int
deriving DecidableEq

/-- A Jupiter swap request, with the fixed options the source sets. -/
structure SwapRequest where
  quoteResponse : QuoteResponse
  userPublicKey : String
  wrapAndUnwrapSol : Bool
  asLegacyTransaction : Bool
deriving DecidableEq

/-- Environment for the Jupiter API: price fetch outcome and the
response to each quote/swap request (`none` inside a successful response
models a missing/falsy payload). -/
structure JupiterEnv where
  prices : Except String (ℚ × ℚ)
  quoteGet : QuoteRequest → Except String (Option QuoteResponse)
  swapPost : SwapRequest → Except String (Option (List Char))

/-- Result of `calculateRequiredSolForMinimumJup`. -/
structure CalcResult where
  solAmount : ℚ
  jupPrice : ℚ
  solPrice : ℚ
  targetJupAmount : ℚ
  minimumJupOutput : ℚ
deriving DecidableEq

/-- Embedding of `calculateRequiredSolForMinimumJup`: the SOL amount whose
value covers 250 JUP plus a 5% buffer at current prices. -/
def calculateRequiredSolForMinimumJup (env : JupiterEnv) : Except String CalcResult := do
  let (jupPrice, solPrice) ← env.prices
  let targetJupAmount := MINIMUM_JUP_OUTPUT * BUFFER_PERCENTAGE
  let requiredSol := targetJupAmount * jupPrice / solPrice
  pure { solAmount := requiredSol, jupPrice := jupPrice, solPrice := solPrice
         targetJupAmount := targetJupAmount, minimumJupOutput := MINIMUM_JUP_OUTPUT }

/-- Embedding of `getTokenDecimals`. -/
def getTokenDecimals : String → Nat
  | "SOL" => 9
  | "USDC" => 6
  | "JUP" => 6
  | _ => 9

/-- Embedding of `toBaseUnits` (`Math.floor(amount * 10^decimals)`). -/
def toBaseUnits (amount : ℚ) (token : String) : Int :=
  ⌊amount * (10 : ℚ) ^ getTokenDecimals token⌋

/-- Embedding of `fromBaseUnits`. -/
def fromBaseUnits (amount : Int) (token : String) : ℚ :=
  (amount : ℚ) / (10 : ℚ) ^ getTokenDecimals token

/-- Embedding of `getJupiterQuote`: mint lookups, then the quote request
with the fixed `maxAccounts`/`onlyDirectRoutes` options; a missing quote
is an error. -/
def getJupiterQuote (env : JupiterEnv) (inputToken outputToken : String)
    (amount : ℚ) (slippageBps : Nat) : Except String QuoteResponse :=
  match TOKEN_ADDRESS inputToken with
  | none => .error ("Unknown input token: " ++ inputToken)
  | some inputMint =>
    match TOKEN_ADDRESS outputToken with
    | none => .error ("Unknown output token: " ++ outputToken)
    | some outputMint => do
      let resp ← env.quoteGet
        { inputMint := inputMint, outputMint := outputMint
          amount := toBaseUnits amount inputToken, slippageBps := slippageBps
          maxAccounts := 15, onlyDirectRoutes := true }
      match resp with
      | none => .error "Failed to get Jupiter quote"
      | some q => pure q

/-- Result of `buildJupiterSwapTransaction`. -/
structure SwapBuildResult where
  transaction : VersionedTransaction
  expectedOutput : ℚ
  quote : QuoteResponse
  calculatedSolAmount : ℚ
deriving DecidableEq

/-- Embedding of `buildJupiterSwapTransaction`.  The caller-supplied
`_amount` is unused by the source: the SOL amount is recomputed from the
policy minimum.  The base64 payload returned by the swap endpoint is
decoded and deserialized, then validated against the lookup-table and
size constraints. -/
def buildJupiterSwapTransaction (env : JupiterEnv) (userPublicKey : String)
    (inputToken outputToken : String) (_amount : ℚ) (slippageBps : Nat) :
    Except String SwapBuildResult :=
  match TOKEN_ADDRESS inputToken with
  | none => .error ("Unknown input token: " ++ inputToken)
  | some _inputMint =>
    match TOKEN_ADDRESS outputToken with
    | none => .error ("Unknown output token: " ++ outputToken)
    | some _outputMint => do
      let calcRes ← calculateRequiredSolForMinimumJup env
      let quoteResp ← getJupiterQuote env inputToken outputToken calcRes.solAmount slippageBps
      let swapResult ← env.swapPost
        { quoteResponse := quoteResp, userPublicKey := userPublicKey
          wrapAndUnwrapSol := true, asLegacyTransaction := true }
      match swapResult with
      | none => .error "Failed to get Jupiter swap transaction"
      | some base64Transaction =>
        let transactionBytes := (b64Decode base64Transaction).getD []
        match VersionedTransaction.deserialize transactionBytes with
        | none => .error "Transaction deserialization failed"
        | some transaction =>
          if transaction.message.version = .v0 ∧ transaction.message.addressTableLookups ≠ [] then
            .error ("Jupiter returned a V0 transaction with Address Lookup Tables. " ++
              "This swap route is too complex for Jito bundles. Try a smaller amount or different token pair.")
          else if 1232 < transactionBytes.length then
            .error ("Jupiter swap transaction too large (" ++ toString transactionBytes.length ++
              " > 1232 bytes). Try a smaller amount or the swap route is too complex for Jito bundles.")
          else
            pure { transaction := transaction
                   expectedOutput := fromBaseUnits quoteResp.outAmount outputToken
                   quote := quoteResp, calculatedSolAmount := calcRes.solAmount }

/-! ## Transfer and tip builders

Embedding of `buildTokenTransferTransaction` (the 5-parameter transfer
module, which always fetches a fresh blockhash) and of the 4-parameter
`createTipTransaction` of the pre-submission-validation `jito.ts`. -/

/-- A transaction instruction: program, account metas
(address, isSigner, isWritable), opcode payload bytes. -/
structure Instruction where
  programId : String
  keys : List (String × Bool × Bool)
  data : List Nat
deriving DecidableEq

/-- Model of `TransactionMessage.compileToLegacyMessage` followed by
`message.serialize()`: a legacy message whose byte content carries the
header (1 required signature), the payer, the blockhash, and the
instruction payloads.  The exact account-table layout of the wire format
is abstracted, but byte content grows with the instruction payloads, so
transaction sizes are meaningful. -/
def compileToLegacyMessage (payerKey : String) (recentBlockhash : String)
    (instructions : List Instruction) : VersionedMessage :=
  { version := .legacy
    recentBlockhash := recentBlockhash
    addressTableLookups := []
    bytes := 1 :: (payerKey.data.map Char.toNat) ++ (recentBlockhash.data.map Char.toNat) ++
      (instructions.map fun ix => ix.data).flatten }

/-- Model of `new VersionedTransaction(message)`: the signature list is
pre-filled with one zeroed 64-byte signature (the message requires one
signer). -/
def VersionedTransaction.ofMessage (m : VersionedMessage) : VersionedTransaction :=
  { signatures := [List.replicate 64 0], message := m }

/-- Model of the compute-budget library instructions
(`setComputeUnitLimit({units: 100000})`, `setComputeUnitPrice({microLamports: 1000})`);
payload bytes abstracted. -/
def setComputeUnitLimitIx : Instruction :=
  { programId := "ComputeBudget111111111111111111111111111111", keys := [], data := [2] }

/-- See `setComputeUnitLimitIx`. -/
def setComputeUnitPriceIx : Instruction :=
  { programId := "ComputeBudget111111111111111111111111111111", keys := [], data := [3] }

/-- Environment for the transfer builder: destination account existence,
the token-library instructions, and the fresh blockhash fetch. -/
structure TransferEnv where
  getAccountInfoResp : Except String Bool
  createATAIx : Instruction
  transferIx : Instruction
  getLatestBlockhashResp : Except String String

/-- Embedding of `buildTokenTransferTransaction` (5 parameters): mint
lookup, compute-budget instructions, destination-account creation when
absent, the transfer instruction, then a legacy message compiled against
a freshly fetched blockhash. -/
def buildTokenTransferTransaction (env : TransferEnv) (senderPublicKey : String)
    (token : String) (_recipientAddress : String) (_amount : ℚ) :
    Except String VersionedTransaction :=
  match TOKEN_ADDRESS token with
  | none => .error ("Unknown token: " ++ token)
  | some _mint => do
    let destExists ← env.getAccountInfoResp
    let instructions := [setComputeUnitLimitIx, setComputeUnitPriceIx] ++
      (if destExists then [] else [env.createATAIx]) ++ [env.transferIx]
    let blockhash ← env.getLatestBlockhashResp
    pure (VersionedTransaction.ofMessage
      (compileToLegacyMessage senderPublicKey blockhash instructions))

/-- The static Jito tip-account list. -/
def JITO_TIP_ACCOUNTS : List String :=
  [ "96gYZGLnJYVFmbjzopPSU6QiEV5fGqZNyN9nmNhvrZU5"
  , "HFqU5x63VTqvQss8hp11i4bVmrqYHMDPhLmLB9mP8EAG"
  , "Cw8CFyM9FkoMi7K7Crf6HNQqf4uEMzpKw6QNghXLvLkY"
  , "ADaUMid9yfUytqMBgopwjb2DTLSjbnAHwPLnHzx8E6Wq"
  , "DfXygSm4jCyNCybVYYK6DwvWqjKee8pbDmJGcLWNDXjh"
  , "ADuUkR4vqLUMWXxW9gh6D6L8pMSawimctcNZ5pGwDcEt"
  , "DttWaMuVvTiduZRnguLF7jNxTgiMBZ1hyAumKUiL2KRL"
  , "3AVi9Tg9Uo68tJfuvoKvqKNWKkC5wPdSSdeBnizKZ6jT" ]

/-- Environment for the tip builder: the random pick and the blockhash
fetch used only when no blockhash is passed in. -/
structure TipEnv where
  randomTipIndex : Nat
  getLatestBlockhashResp : Except String String

/-- Model of the `SystemProgram.transfer` instruction; payload bytes
abstracted beyond the opcode. -/
def systemTransferIx (fromPubkey toPubkey : String) (_lamports : Nat) : Instruction :=
  { programId := "11111111111111111111111111111111"
    keys := [(fromPubkey, true, true), (toPubkey, false, true)]
    data := [2] }

/-- Embedding of the 4-parameter `createTipTransaction`: random tip
account, the caller's blockhash when provided (else a fresh fetch), one
system-transfer instruction, legacy message. -/
def createTipTransaction (env : TipEnv) (payerPubkey : String) (tipLamports : Nat)
    (recentBlockhash : Option String) : Except String VersionedTransaction := do
  let tipAccount := JITO_TIP_ACCOUNTS.getD (env.randomTipIndex % JITO_TIP_ACCOUNTS.length) ""
  let blockhash ← match recentBlockhash with
    | some bh => pure bh
    | none => env.getLatestBlockhashResp
  pure (VersionedTransaction.ofMessage
    (compileToLegacyMessage payerPubkey blockhash
      [systemTransferIx payerPubkey tipAccount tipLamports]))

/-! ## Bundle hook

Embedding of the `useAtomicSwapShort` bundle-path `execute`: build swap,
extract its blockhash as the shared blockhash, build short (discarded —
its push is commented out in the source, as is the swap's), build
transfer and tip, request one batched signature, then submit and confirm.

Note: the source passes `sharedBlockhash` as a sixth argument to the
5-parameter `buildTokenTransferTransaction`; per JavaScript semantics the
extra argument is ignored by the callee, so the transfer transaction is
compiled against a freshly fetched blockhash. -/

/-- Caller-supplied configuration of a run. -/
structure AtomicOperationConfig where
  solAmount : ℚ
  shortAmount : ℚ
  transferAmount : ℚ
  targetAddress : String
  depositAmount : Option ℚ
  jitoTipLamports : Option Nat
deriving DecidableEq

/-- Default tip (0.00005 SOL). -/
def DEFAULT_TIP_LAMPORTS : Nat := 50000

/-- Model of the wallet batch-signing capability: the prompt may be
rejected; on success the wallet returns the given transactions with
signature bytes filled in (it signs the messages it is shown, altering
nothing else). -/
structure WalletEnv where
  signAllResp : List VersionedTransaction → Except String Unit
  sigsFor : Nat → List (List Nat)

/-- Environment of one bundle-path run. -/
structure BundleHookEnv where
  walletConnected : Bool
  publicKey : String
  jupiter : JupiterEnv
  driftInit : Except String Unit
  shortBuild : String → Except String VersionedTransaction
  transfer : TransferEnv
  tip : TipEnv
  wallet : WalletEnv
  relay : RelayEnv

/-- The failure result the hook's catch block produces. -/
def hookErrResult (e : String) : JitoBundleResult :=
  { bundleId := "", success := false, error := some e }

/-- Embedding of the bundle-path `execute`.  The second component is the
trace of externally visible wallet/relay requests. -/
def executeAtomic (env : BundleHookEnv) (config : AtomicOperationConfig) :
    JitoBundleResult × List BundleEvent :=
  if ¬ env.walletConnected then (hookErrResult "Wallet not connected", [])
  else
    let jitoTipLamports := config.jitoTipLamports.getD DEFAULT_TIP_LAMPORTS
    match buildJupiterSwapTransaction env.jupiter env.publicKey "SOL" "JUP"
        config.solAmount 50 with
    | .error e => (hookErrResult e, [])
    | .ok swapBuild =>
      let sharedBlockhash := swapBuild.transaction.message.recentBlockhash
      match env.driftInit with
      | .error e => (hookErrResult e, [])
      | .ok _ =>
        match env.shortBuild sharedBlockhash with
        | .error e => (hookErrResult e, [])
        | .ok _shortTx =>
          match buildTokenTransferTransaction env.transfer env.publicKey "JUP"
              config.targetAddress config.transferAmount with
          | .error e => (hookErrResult e, [])
          | .ok transferTx =>
            match createTipTransaction env.tip env.publicKey jitoTipLamports
                (some sharedBlockhash) with
            | .error e => (hookErrResult e, [])
            | .ok tipTx =>
              let transactions := [transferTx, tipTx]
              match env.wallet.signAllResp transactions with
              | .error e => (hookErrResult e, [.signRequested transactions])
              | .ok _ =>
                let signedTransactions := transactions.enum.map fun p =>
                  { p.2 with signatures := env.wallet.sigsFor p.1 }
                let submitted := submitAndConfirmBundle env.relay signedTransactions 60000
                (submitted.1, .signRequested transactions :: submitted.2)

/-- `true` when some batch signing request in the trace carried a
transaction violating the relay constraints (oversized or
lookup-table-bearing). -/
def signRequestViolation (events : List BundleEvent) : Bool :=
  events.any fun e =>
    match e with
    | .signRequested txs =>
      txs.any fun t =>
        1232 < t.serialize.length ∨
          (t.message.version = .v0 ∧ t.message.addressTableLookups ≠ [])
    | .bundleSubmitted _ => false

instance {ε α : Type} [DecidableEq ε] [DecidableEq α] : DecidableEq (Except ε α) := fun x y =>
  match x, y with
  | .error a, .error b =>
    if h : a = b then .isTrue (by rw [h]) else .isFalse fun hh => by cases hh; exact h rfl
  | .ok a, .ok b =>
    if h : a = b then .isTrue (by rw [h]) else .isFalse fun hh => by cases hh; exact h rfl
  | .error _, .ok _ => .isFalse fun hh => by cases hh
  | .ok _, .error _ => .isFalse fun hh => by cases hh

/-- The builder slot `j` exists and its execution step does not confirm. -/
def stepNotConfirmed (env : SeqEnv) (builders : List TransactionToBuild) (j : Nat) : Prop :=
  match builders[j]? with
  | some b => (runStep env j b).status ≠ .confirmed
  | none => False

instance (env : SeqEnv) (builders : List TransactionToBuild) (j : Nat) :
    Decidable (stepNotConfirmed env builders j) :=
  match h : builders[j]? with
  | some b =>
    decidable_of_iff ((runStep env j b).status ≠ .confirmed) (by simp [stepNotConfirmed, h])
  | none => decidable_of_iff False (by simp [stepNotConfirmed, h])

/-! ## Concrete inputs used by witnesses -/

/-- A minimal well-formed transaction. -/
def txSmall : VersionedTransaction :=
  { signatures := [List.replicate 64 0]
    message := { version := .legacy, recentBlockhash := "blockhashA"
                 addressTableLookups := [], bytes := [1, 2, 3] } }

/-- A sequential environment in which every external call succeeds. -/
def seqEnvOk : SeqEnv :=
  { sign := fun _ tx => .ok tx
    sendRawTransaction := fun _ _ => .ok "sigA"
    getLatestBlockhash := fun _ => .ok ("bh", 0)
    confirmTransaction := fun _ _ _ => .ok none }

/-- Three builders with a deliberately failing one at index 1. -/
def buildersW1 : List TransactionToBuild :=
  [ { name := "Jupiter Swap", build := .ok txSmall }
  , { name := "Drift Short", build := .error "oracle unavailable" }
  , { name := "Token Transfer", build := .ok txSmall } ]

/-- A single builder whose build fails. -/
def buildersW4 : List TransactionToBuild :=
  [ { name := "Jupiter Swap", build := .error "Unknown input token: ABC" } ]

/-- A polling environment whose endpoints always answer with an empty
status list (the relay never records the bundle). -/
def pollEnvW7 : PollEnv :=
  { getBundleStatuses := fun _ => .ok []
    getInflightBundleStatuses := fun _ => .ok []
    netDelay := fun _ => 0 }

/-- A transaction whose serialized form exceeds the 1232-byte ceiling. -/
def txBigC5 : VersionedTransaction :=
  { signatures := []
    message := { version := .legacy, recentBlockhash := "bh"
                 addressTableLookups := [], bytes := List.replicate 1300 5 } }

/-- A small well-formed transaction for the round-trip witness. -/
def txRoundW : VersionedTransaction :=
  { signatures := [List.replicate 64 7]
    message := { version := .legacy, recentBlockhash := "bhash"
                 addressTableLookups := [], bytes := [0, 1, 2, 3, 4] } }

/-- The swap transaction the mock Jupiter endpoint returns. -/
def txSwapC2 : VersionedTransaction :=
  { signatures := [List.replicate 64 0]
    message := { version := .legacy, recentBlockhash := "SHARED"
                 addressTableLookups := [], bytes := [1, 2, 3] } }

/-- A Jupiter environment delivering fixed prices, quote and swap
payload. -/
def jupiterEnvC2 : JupiterEnv :=
  { prices := .ok (1 / 2, 100)
    quoteGet := fun _ => .ok (some { outAmount := 262500000 })
    swapPost := fun _ => .ok (some (b64Encode txSwapC2.serialize)) }

/-- A transfer environment with an existing destination account and a
small transfer instruction. -/
def transferEnvC2 : TransferEnv :=
  { getAccountInfoResp := .ok true
    createATAIx := { programId := "ATokenGPvbdGVxr1b2hvZbsiqW5xWH25efTNsLJA8knL"
                     keys := [], data := [1] }
    transferIx := { programId := "TokenkegQfeZyiNwAJbNbGKPFXCWuBvf9Ss623VQ5DA"
                    keys := [], data := [3, 9] }
    getLatestBlockhashResp := .ok "FRESH" }

/-- A tip environment picking the first static tip account. -/
def tipEnvC2 : TipEnv :=
  { randomTipIndex := 0, getLatestBlockhashResp := .ok "UNUSED" }

/-- A wallet that signs every batch with a fixed signature. -/
def walletEnvC2 : WalletEnv :=
  { signAllResp := fun _ => .ok (), sigsFor := fun _ => [List.replicate 64 1] }

/-- A relay whose submission endpoint is unavailable (the run still
reaches the submission request). -/
def relayEnvC2 : RelayEnv :=
  { sendBundleResp := fun _ => .error "relay unavailable", poll := pollEnvW7 }

/-- A complete bundle-hook environment reaching the submission step. -/
def envC2 : BundleHookEnv :=
  { walletConnected := true
    publicKey := "PK"
    jupiter := jupiterEnvC2
    driftInit := .ok ()
    shortBuild := fun _ => .ok txSwapC2
    transfer := transferEnvC2
    tip := tipEnvC2
    wallet := walletEnvC2
    relay := relayEnvC2 }

/-- The run configuration of the bundle witnesses. -/
def cfgC2 : AtomicOperationConfig :=
  { solAmount := 5, shortAmount := 10, transferAmount := 5
    targetAddress := "TARGETADDR", depositAmount := none, jitoTipLamports := none }

/-- The swap-builder result of `envC2`'s run: the reparsed swap
transaction, policy-derived amounts. -/
def swapResC2 : SwapBuildResult :=
  { transaction :=
      { signatures := [List.replicate 64 0]
        message := { version := .legacy, recentBlockhash := ""
                     addressTableLookups := [], bytes := [1, 2, 3] } }
    expectedOutput := fromBaseUnits 262500000 "JUP"
    quote := { outAmount := 262500000 }
    calculatedSolAmount := MINIMUM_JUP_OUTPUT * BUFFER_PERCENTAGE * (1 / 2) / 100 }

/-- The signed bundle `envC2`'s run submits: the transfer (fresh
blockhash) and the tip (shared blockhash, here the parse default). -/
def txsC2 : List VersionedTransaction :=
  [ { VersionedTransaction.ofMessage (compileToLegacyMessage "PK" "FRESH"
        [setComputeUnitLimitIx, setComputeUnitPriceIx, transferEnvC2.transferIx]) with
      signatures := [List.replicate 64 1] }
  , { VersionedTransaction.ofMessage (compileToLegacyMessage "PK" ""
        [systemTransferIx "PK" "96gYZGLnJYVFmbjzopPSU6QiEV5fGqZNyN9nmNhvrZU5" 50000]) with
      signatures := [List.replicate 64 1] } ]

/-- A transfer environment whose transfer instruction payload makes the
compiled transaction exceed the 1232-byte ceiling. -/
def transferEnvBadC3 : TransferEnv :=
  { getAccountInfoResp := .ok true
    createATAIx := { programId := "ATokenGPvbdGVxr1b2hvZbsiqW5xWH25efTNsLJA8knL"
                     keys := [], data := [1] }
    transferIx := { programId := "TokenkegQfeZyiNwAJbNbGKPFXCWuBvf9Ss623VQ5DA"
                    keys := [], data := List.replicate 1232 0 }
    getLatestBlockhashResp := .ok "FRESH" }

/-- `envC2` with the oversized transfer instruction. -/
def envBadC3 : BundleHookEnv :=
  { walletConnected := true
    publicKey := "PK"
    jupiter := jupiterEnvC2
    driftInit := .ok ()
    shortBuild := fun _ => .ok txSwapC2
    transfer := transferEnvBadC3
    tip := tipEnvC2
    wallet := walletEnvC2
    relay := relayEnvC2 }

/-- A relay environment for the amended-validation witness. -/
def relayEnvC3W : RelayEnv :=
  { sendBundleResp := fun _ => .ok "bundleC3", poll := pollEnvW7 }

/-- A relay whose submission endpoint throws. -/
def relayEnvW9 : RelayEnv :=
  { sendBundleResp := fun _ => .error "sendBundle failed: rate limited", poll := pollEnvW7 }

/-- A Jupiter environment with fixed prices and failing endpoints. -/
def envC8 : JupiterEnv :=
  { prices := .ok (1 / 2, 100)
    quoteGet := fun _ => .error "offline"
    swapPost := fun _ => .error "offline" }

/-! # Theorems -/

/-! ## Codec lemmas -/

/-- Every byte produced by the shortvec encoding loop is a valid byte. -/
theorem encodeCompactU16Aux_bytes_lt (fuel : Nat) :
    ∀ n, ∀ b ∈ encodeCompactU16Aux fuel n, b < 256 := by
  induction fuel with
  | zero =>
    intro n b hb
    simp [encodeCompactU16Aux] at hb
  | succ fuel ih =>
    intro n b hb
    unfold encodeCompactU16Aux at hb
    split at hb
    · simp only [List.mem_singleton] at hb
      omega
    · simp only [List.mem_cons] at hb
      rcases hb with h | h
      · have := Nat.mod_lt n (y := 128) (by omega)
        omega
      · exact ih (n / 128) b h

/-- Every byte produced by the shortvec encoder is a valid byte. -/
theorem encodeCompactU16_bytes_lt (n : Nat) : ∀ b ∈ encodeCompactU16 n, b < 256 :=
  encodeCompactU16Aux_bytes_lt (n + 1) n

/-- With sufficient fuel, decoding inverts the shortvec encoding loop. -/
theorem decodeCompactU16_encodeAux (fuel : Nat) :
    ∀ n, n < 128 ^ (fuel + 1) → ∀ rest,
    decodeCompactU16 (encodeCompactU16Aux (fuel + 1) n ++ rest) = some (n, rest) := by
  induction fuel with
  | zero =>
    intro n hn rest
    have hn' : n < 128 := by simpa using hn
    unfold encodeCompactU16Aux
    rw [if_pos hn']
    simp [decodeCompactU16, hn']
  | succ fuel ih =>
    intro n hn rest
    unfold encodeCompactU16Aux
    split
    · simp [decodeCompactU16, *]
    · rename_i h
      have hdiv : n / 128 < 128 ^ (fuel + 1) := by
        rw [Nat.div_lt_iff_lt_mul (by omega)]
        calc n < 128 ^ (fuel + 1 + 1) := hn
        _ = 128 ^ (fuel + 1) * 128 := by ring
      have hrec := ih (n / 128) hdiv rest
      simp only [List.cons_append, decodeCompactU16]
      rw [if_neg (by omega)]
      simp only [List.append_eq]
      rw [hrec]
      dsimp only
      have : n % 128 + 128 - 128 + n / 128 * 128 = n := by omega
      rw [this]

/-- Decoding a shortvec encoding returns the encoded value and the tail. -/
theorem decodeCompactU16_encode (n : Nat) (rest : List Nat) :
    decodeCompactU16 (encodeCompactU16 n ++ rest) = some (n, rest) := by
  have hlt : n < 128 ^ (n + 1) := by
    have h1 : n < 128 ^ n := Nat.lt_pow_self (by omega) n
    have h2 : 128 ^ n ≤ 128 ^ (n + 1) := Nat.pow_le_pow_right (by omega) (by omega)
    omega
  exact decodeCompactU16_encodeAux n n hlt rest

/-- `b64Index` inverts `b64Char` on every sextet. -/
theorem b64Index_b64Char : ∀ n, n < 64 → b64Index (b64Char n) = some n := by decide

/-- No sextet maps to the padding character. -/
theorem b64Char_ne_pad : ∀ n, n < 64 → b64Char n ≠ '=' := by decide

/-- Base64 decoding inverts base64 encoding on byte lists. -/
theorem b64Decode_b64Encode (l : List Nat) (h : ∀ b ∈ l, b < 256) :
    b64Decode (b64Encode l) = some l := by
  induction l using b64Encode.induct with
  | case1 => simp [b64Encode, b64Decode]
  | case2 a =>
    have ha : a < 256 := h a (by simp)
    have h1 : a / 4 < 64 := by omega
    have h2 : a % 4 * 16 < 64 := by omega
    simp only [b64Encode, b64Decode]
    rw [b64Index_b64Char _ h1, b64Index_b64Char _ h2]
    dsimp only
    simp only [and_self, if_true]
    simp only [Option.some.injEq, List.cons.injEq, and_true]
    omega
  | case3 a b =>
    have ha : a < 256 := h a (by simp)
    have hb : b < 256 := h b (by simp)
    have h1 : a / 4 < 64 := by omega
    have h2 : a % 4 * 16 + b / 16 < 64 := by omega
    have h3 : b % 16 * 4 < 64 := by omega
    simp only [b64Encode, b64Decode]
    rw [b64Index_b64Char _ h1, b64Index_b64Char _ h2]
    dsimp only
    rw [if_neg (b64Char_ne_pad _ h3), b64Index_b64Char _ h3]
    dsimp only
    simp only [if_true]
    simp only [Option.some.injEq, List.cons.injEq, and_true]
    constructor
    · omega
    · omega
  | case4 a b d rest ih =>
    have ha : a < 256 := h a (by simp)
    have hb : b < 256 := h b (by simp)
    have hd : d < 256 := h d (by simp)
    have hrest : ∀ x ∈ rest, x < 256 := by
      intro x hx
      exact h x (by simp [hx])
    have h1 : a / 4 < 64 := by omega
    have h2 : a % 4 * 16 + b / 16 < 64 := by omega
    have h3 : b % 16 * 4 + d / 64 < 64 := by omega
    have h4 : d % 64 < 64 := by omega
    simp only [b64Encode, b64Decode]
    rw [b64Index_b64Char _ h1, b64Index_b64Char _ h2]
    dsimp only
    rw [if_neg (b64Char_ne_pad _ h3), b64Index_b64Char _ h3]
    dsimp only
    rw [if_neg (b64Char_ne_pad _ h4), b64Index_b64Char _ h4]
    dsimp only
    rw [ih hrest]
    dsimp only [Option.map]
    simp only [Option.some.injEq, List.cons.injEq]
    refine ⟨by omega, by omega, by omega, trivial⟩

/-! ## Sequential executor lemmas -/

/-- A sequential iteration's final ledger entry carries its slot index and
is either `confirmed`, or `failed` with an error message. -/
theorem runStep_spec (env : SeqEnv) (i : Nat) (b : TransactionToBuild) :
    (runStep env i b).index = i ∧
    ((runStep env i b).status = .confirmed ∨
      ((runStep env i b).status = .failed ∧ ((runStep env i b).error).isSome = true)) := by
  unfold runStep
  repeat' split
  all_goals simp

/-- The sequential loop never changes the ledger's length. -/
theorem seqLoop_length (env : SeqEnv) :
    ∀ (rest : List TransactionToBuild) (i : Nat) (results : List TransactionProgress),
    (seqLoop env rest i results).transactions.length = results.length := by
  intro rest
  induction rest with
  | nil =>
    intro i results
    simp [seqLoop]
  | cons b rest ih =>
    intro i results
    simp only [seqLoop]
    split
    · rw [ih]
      simp
    · simp

/-- The initial ledger has one entry per builder. -/
theorem initialProgress_length (builders : List TransactionToBuild) :
    (initialProgress builders).length = builders.length := by
  simp [initialProgress]

/-- Every initial ledger entry is `pending` with its slot index and name. -/
theorem initialProgress_getElem? (builders : List TransactionToBuild) (j : Nat) :
    (initialProgress builders)[j]? = builders[j]?.map fun b =>
      { index := j, name := b.name, status := .pending, signature := none, error := none } := by
  simp only [initialProgress, List.getElem?_map, List.getElem?_enum]
  cases builders[j]? <;> simp

/-- When the step at every remaining slot confirms, the loop succeeds,
writes the confirmed entries into the ledger, and leaves other positions
untouched. -/
theorem seqLoop_all_confirmed (env : SeqEnv) :
    ∀ (rest : List TransactionToBuild) (i : Nat) (results : List TransactionProgress),
    i + rest.length ≤ results.length →
    (∀ j (hj : j < rest.length), (runStep env (i + j) (rest.get ⟨j, hj⟩)).status = .confirmed) →
    (seqLoop env rest i results).success = true ∧
    (seqLoop env rest i results).failedAtIndex = none ∧
    (seqLoop env rest i results).error = none ∧
    (∀ j (hj : j < rest.length), (seqLoop env rest i results).transactions[i + j]? =
      some (runStep env (i + j) (rest.get ⟨j, hj⟩))) ∧
    (∀ m, m < i ∨ i + rest.length ≤ m →
      (seqLoop env rest i results).transactions[m]? = results[m]?) := by
  intro rest
  induction rest with
  | nil =>
    intro i results _ _
    refine ⟨rfl, rfl, rfl, ?_, ?_⟩
    · intro j hj
      exact absurd hj (by simp)
    · intro m _
      rfl
  | cons b rest ih =>
    intro i results hlen hall
    have h0 : (runStep env i b).status = .confirmed := by
      have := hall 0 (by simp)
      simpa using this
    simp only [seqLoop]
    rw [if_pos h0]
    have hlen' : (i + 1) + rest.length ≤ (results.set i (runStep env i b)).length := by
      simp only [List.length_set]
      simp only [List.length_cons] at hlen
      omega
    have hall' : ∀ j (hj : j < rest.length),
        (runStep env ((i + 1) + j) (rest.get ⟨j, hj⟩)).status = .confirmed := by
      intro j hj
      have := hall (j + 1) (by simp; omega)
      have harith : i + (j + 1) = (i + 1) + j := by omega
      rw [harith] at this
      simpa using this
    obtain ⟨hs, hf, he, hset, hpres⟩ := ih (i + 1) (results.set i (runStep env i b)) hlen' hall'
    have hilt : i < results.length := by
      simp only [List.length_cons] at hlen
      omega
    refine ⟨hs, hf, he, ?_, ?_⟩
    · intro j hj
      match j with
      | 0 =>
        simp only [Nat.add_zero]
        have := hpres i (Or.inl (by omega))
        rw [this, List.getElem?_set_self hilt]
        simp
      | j + 1 =>
        have hj' : j < rest.length := by
          simp only [List.length_cons] at hj
          omega
        have := hset j hj'
        have harith : i + (j + 1) = (i + 1) + j := by omega
        rw [harith]
        rw [this]
        simp
    · intro m hm
      have hm' : m < i + 1 ∨ (i + 1) + rest.length ≤ m := by
        simp only [List.length_cons] at hm
        omega
      rw [hpres m hm']
      have : i ≠ m := by
        rcases hm with h | h
        · omega
        · simp only [List.length_cons] at h
          omega
      exact List.getElem?_set_ne this

/-- When the steps at the first `k` remaining slots confirm and the step
at slot `k` does not, the loop fails at absolute index `i + k`, carries
that step's error, writes the processed entries, and leaves every other
position untouched. -/
theorem seqLoop_fail_full (env : SeqEnv) :
    ∀ (rest : List TransactionToBuild) (k i : Nat) (results : List TransactionProgress)
    (hk : k < rest.length),
    i + rest.length ≤ results.length →
    (∀ j (hj : j < k), (runStep env (i + j) (rest.get ⟨j, by omega⟩)).status = .confirmed) →
    (runStep env (i + k) (rest.get ⟨k, hk⟩)).status ≠ .confirmed →
    (seqLoop env rest i results).success = false ∧
    (seqLoop env rest i results).failedAtIndex = some (i + k) ∧
    (seqLoop env rest i results).error = (runStep env (i + k) (rest.get ⟨k, hk⟩)).error ∧
    (∀ m, m < i → (seqLoop env rest i results).transactions[m]? = results[m]?) ∧
    (∀ j (hj : j < k), (seqLoop env rest i results).transactions[i + j]? =
      some (runStep env (i + j) (rest.get ⟨j, by omega⟩))) ∧
    (seqLoop env rest i results).transactions[i + k]? =
      some (runStep env (i + k) (rest.get ⟨k, hk⟩)) ∧
    (∀ m, i + k < m → (seqLoop env rest i results).transactions[m]? = results[m]?) := by
  intro rest
  induction rest with
  | nil =>
    intro k i results hk
    exact absurd hk (by simp)
  | cons b rest ih =>
    intro k i results hk hlen hbefore hfail
    have hilt : i < results.length := by
      simp only [List.length_cons] at hlen
      omega
    match k with
    | 0 =>
      have hfail' : ¬ (runStep env i b).status = .confirmed := by
        simpa using hfail
      simp only [seqLoop]
      rw [if_neg hfail']
      refine ⟨rfl, by simp, by simp, ?_, ?_, ?_, ?_⟩
      · intro m hm
        exact List.getElem?_set_ne (by omega)
      · intro j hj
        exact absurd hj (by omega)
      · simp only [Nat.add_zero]
        rw [List.getElem?_set_self hilt]
        simp
      · intro m hm
        exact List.getElem?_set_ne (by omega)
    | k + 1 =>
      have h0 : (runStep env i b).status = .confirmed := by
        have := hbefore 0 (by omega)
        simpa using this
      simp only [seqLoop]
      rw [if_pos h0]
      have hk' : k < rest.length := by
        simp only [List.length_cons] at hk
        omega
      have hlen' : (i + 1) + rest.length ≤ (results.set i (runStep env i b)).length := by
        simp only [List.length_set]
        simp only [List.length_cons] at hlen
        omega
      have hbefore' : ∀ j (hj : j < k),
          (runStep env ((i + 1) + j) (rest.get ⟨j, by omega⟩)).status = .confirmed := by
        intro j hj
        have := hbefore (j + 1) (by omega)
        have harith : i + (j + 1) = (i + 1) + j := by omega
        rw [harith] at this
        simpa using this
      have hfail' : (runStep env ((i + 1) + k) (rest.get ⟨k, hk'⟩)).status ≠ .confirmed := by
        have harith : i + (k + 1) = (i + 1) + k := by omega
        rw [harith] at hfail
        have hget : ((b :: rest).get ⟨k + 1, hk⟩) = rest.get ⟨k, hk'⟩ := by
          simp
        rw [hget] at hfail
        exact hfail
      obtain ⟨hs, hf, he, hlow, hset, hat, hhigh⟩ := ih k (i + 1) _ hk' hlen' hbefore' hfail'
      have harith : i + (k + 1) = (i + 1) + k := by omega
      have hget : ((b :: rest).get ⟨k + 1, hk⟩) = rest.get ⟨k, hk'⟩ := by
        simp
      refine ⟨hs, ?_, ?_, ?_, ?_, ?_, ?_⟩
      · rw [hf, harith]
      · rw [he, harith, hget]
      · intro m hm
        rw [hlow m (by omega)]
        exact List.getElem?_set_ne (by omega)
      · intro j hj
        match j with
        | 0 =>
          have := hlow i (by omega)
          simp only [Nat.add_zero]
          rw [this, List.getElem?_set_self hilt]
          simp
        | j + 1 =>
          have hj' : j < k := by omega
          have := hset j hj'
          have harith2 : i + (j + 1) = (i + 1) + j := by omega
          rw [harith2, this]
          simp
      · rw [harith, hget]
        exact hat
      · intro m hm
        rw [hhigh m (by omega)]
        exact List.getElem?_set_ne (by omega)

/-- C10: on an empty builder list, the executor returns immediate success
with an empty ledger, no error, and no failure index — even though the
documented contract expects at least one builder. -/
theorem sequential_empty_list (env : SeqEnv) :
    executeTransactionsSequentially env [] =
      { success := true, transactions := [], error := none, failedAtIndex := none } := rfl

/-- C1: with every builder before slot `k` confirming and the builder at
slot `k` failing (build/sign/submit throw, confirmation throw, or on-chain
rejection — the spec's single deliberately-failing builder scenario), the
run fails at index `k` with `success = false`, and every ledger entry
above `k` is still `pending`. -/
theorem sequential_fail_fast (env : SeqEnv) (builders : List TransactionToBuild) (k : Nat)
    (hk : k < builders.length)
    (hbefore : ∀ j (hj : j < k), (runStep env j (builders.get ⟨j, by omega⟩)).status = .confirmed)
    (hfail : (runStep env k (builders.get ⟨k, hk⟩)).status = .failed) :
    (executeTransactionsSequentially env builders).success = false ∧
    (executeTransactionsSequentially env builders).failedAtIndex = some k ∧
    ∀ j, k < j → ∀ pe, (executeTransactionsSequentially env builders).transactions[j]? = some pe →
      pe.status = .pending := by
  have hlen : 0 + builders.length ≤ (initialProgress builders).length := by
    rw [initialProgress_length]
    omega
  have hbefore' : ∀ j (hj : j < k),
      (runStep env (0 + j) (builders.get ⟨j, by omega⟩)).status = .confirmed := by
    intro j hj
    have := hbefore j hj
    simpa using this
  have hfail' : (runStep env (0 + k) (builders.get ⟨k, hk⟩)).status ≠ .confirmed := by
    simp only [Nat.zero_add]
    rw [hfail]
    simp
  obtain ⟨hs, hf, _, _, _, _, hhigh⟩ :=
    seqLoop_fail_full env builders k 0 (initialProgress builders) hk hlen hbefore' hfail'
  unfold executeTransactionsSequentially
  refine ⟨hs, by simpa using hf, ?_⟩
  intro j hj pe hpe
  have := hhigh j (by omega)
  rw [this, initialProgress_getElem?] at hpe
  cases hb : builders[j]? with
  | none => rw [hb] at hpe; simp at hpe
  | some b =>
    rw [hb] at hpe
    simp only [Option.map_some'] at hpe
    cases hpe
    rfl

/-- C1 witness: three builders, the one at index 1 failing. -/
theorem sequential_fail_fast_witness :
    (1 < buildersW1.length ∧
      (runStep seqEnvOk 1 (buildersW1.get ⟨1, by decide⟩)).status = .failed) ∧
    ((executeTransactionsSequentially seqEnvOk buildersW1).success = false ∧
      (executeTransactionsSequentially seqEnvOk buildersW1).failedAtIndex = some 1 ∧
      ∀ j, 1 < j → ∀ pe,
        (executeTransactionsSequentially seqEnvOk buildersW1).transactions[j]? = some pe →
        pe.status = .pending) :=
  ⟨⟨by decide, by decide⟩,
    sequential_fail_fast seqEnvOk buildersW1 1 (by decide) (by decide) (by decide)⟩

/-- C4: the executor succeeds only with every ledger entry `confirmed`;
on failure, `failedAtIndex` names the first slot whose entry did not reach
`confirmed` (entries below it confirmed, the named entry not). -/
theorem sequential_output_guarantee (env : SeqEnv) (builders : List TransactionToBuild) :
    ((executeTransactionsSequentially env builders).success = true →
      ∀ (j : Nat) (pe : TransactionProgress),
        (executeTransactionsSequentially env builders).transactions[j]? = some pe →
        pe.status = .confirmed) ∧
    ((executeTransactionsSequentially env builders).success = false →
      ∃ k, (executeTransactionsSequentially env builders).failedAtIndex = some k ∧
        (∀ j, j < k → ∀ (pe : TransactionProgress),
          (executeTransactionsSequentially env builders).transactions[j]? = some pe →
          pe.status = .confirmed) ∧
        (∀ (pe : TransactionProgress),
          (executeTransactionsSequentially env builders).transactions[k]? = some pe →
          pe.status ≠ .confirmed)) := by
  simp only [executeTransactionsSequentially]
  by_cases hall : ∀ j (hj : j < builders.length),
      (runStep env j (builders.get ⟨j, hj⟩)).status = .confirmed
  · have hlen : 0 + builders.length ≤ (initialProgress builders).length := by
      rw [initialProgress_length]
      omega
    have hall' : ∀ j (hj : j < builders.length),
        (runStep env (0 + j) (builders.get ⟨j, hj⟩)).status = .confirmed := by
      intro j hj
      simpa using hall j hj
    obtain ⟨hs, _, _, hset, hpres⟩ :=
      seqLoop_all_confirmed env builders 0 (initialProgress builders) hlen hall'
    constructor
    · intro _ j pe hpe
      by_cases hj : j < builders.length
      · have hj0 := hset j hj
        simp only [Nat.zero_add] at hj0
        rw [hj0] at hpe
        cases hpe
        exact hall j hj
      · have := hpres j (Or.inr (by omega))
        rw [this, initialProgress_getElem?, List.getElem?_eq_none (by omega)] at hpe
        simp at hpe
    · intro hfalse
      rw [hs] at hfalse
      cases hfalse
  · push_neg at hall
    have hex : ∃ j, stepNotConfirmed env builders j := by
      obtain ⟨j, hj, hne⟩ := hall
      refine ⟨j, ?_⟩
      simp only [stepNotConfirmed, List.getElem?_eq_getElem hj]
      simpa [List.get_eq_getElem] using hne
    have hk := Nat.find_spec hex
    have hmin : ∀ m, m < Nat.find hex → ¬ stepNotConfirmed env builders m :=
      fun m hm => Nat.find_min hex hm
    set k := Nat.find hex with hkdef
    obtain ⟨b, hb⟩ : ∃ b, builders[k]? = some b := by
      unfold stepNotConfirmed at hk
      cases hbk : builders[k]? with
      | none => rw [hbk] at hk; exact absurd hk (by simp)
      | some b => exact ⟨b, rfl⟩
    have hklen : k < builders.length := by
      by_contra hcon
      rw [List.getElem?_eq_none (by omega)] at hb
      cases hb
    have hbget : builders.get ⟨k, hklen⟩ = b := by
      have := List.getElem?_eq_getElem hklen
      rw [hb] at this
      simpa [List.get_eq_getElem] using this.symm
    have hfail : (runStep env k (builders.get ⟨k, hklen⟩)).status ≠ .confirmed := by
      rw [hbget]
      unfold stepNotConfirmed at hk
      rw [hb] at hk
      exact hk
    have hbefore : ∀ j (hj : j < k),
        (runStep env (0 + j) (builders.get ⟨j, by omega⟩)).status = .confirmed := by
      intro j hj
      have hjlen : j < builders.length := by omega
      have hnot := hmin j hj
      unfold stepNotConfirmed at hnot
      rw [List.getElem?_eq_getElem hjlen] at hnot
      simp only [not_not] at hnot
      simpa [List.get_eq_getElem] using hnot
    have hfail' : (runStep env (0 + k) (builders.get ⟨k, hklen⟩)).status ≠ .confirmed := by
      simpa using hfail
    have hlen : 0 + builders.length ≤ (initialProgress builders).length := by
      rw [initialProgress_length]
      omega
    obtain ⟨hs, hf, _, _, hset, hat, _⟩ :=
      seqLoop_fail_full env builders k 0 (initialProgress builders) hklen hlen hbefore hfail'
    constructor
    · intro htrue
      rw [hs] at htrue
      cases htrue
    · intro _
      refine ⟨k, by simpa using hf, ?_, ?_⟩
      · intro j hj pe hpe
        have hj0 := hset j hj
        simp only [Nat.zero_add] at hj0
        rw [hj0] at hpe
        cases hpe
        have := hbefore j hj
        simpa using this
      · intro pe hpe
        have hat0 := hat
        simp only [Nat.zero_add] at hat0
        rw [hat0] at hpe
        cases hpe
        exact hfail

/-- C4 witness: a run whose single builder fails at slot 0. -/
theorem sequential_output_guarantee_witness :
    (executeTransactionsSequentially seqEnvOk buildersW4).success = false ∧
    (∃ k, (executeTransactionsSequentially seqEnvOk buildersW4).failedAtIndex = some k ∧
      (∀ j, j < k → ∀ (pe : TransactionProgress),
        (executeTransactionsSequentially seqEnvOk buildersW4).transactions[j]? = some pe →
        pe.status = .confirmed) ∧
      (∀ (pe : TransactionProgress),
        (executeTransactionsSequentially seqEnvOk buildersW4).transactions[k]? = some pe →
        pe.status ≠ .confirmed)) :=
  ⟨by decide, (sequential_output_guarantee seqEnvOk buildersW4).2 (by decide)⟩

/-! ## JSON stringification lemmas -/

/-- Appending strings concatenates their character data. -/
theorem strData_append (a b : String) : (a ++ b).data = a.data ++ b.data := by
  cases a
  cases b
  rfl

/-- Every character of a natural number's digit expansion is a decimal
digit character. -/
theorem natToRevDigits_mem (n : Nat) : ∀ c ∈ natToRevDigits n, c ∈ "0123456789".data := by
  induction n using Nat.strong_induction_on with
  | _ n ih =>
    unfold natToRevDigits
    have hdig : ∀ m, m < 10 → digitChar m ∈ "0123456789".data := by decide
    split
    · rename_i h
      intro c hc
      simp only [List.mem_singleton] at hc
      subst hc
      exact hdig n h
    · rename_i h
      intro c hc
      simp only [List.mem_cons] at hc
      rcases hc with hc | hc
      · subst hc
        exact hdig (n % 10) (Nat.mod_lt n (by omega))
      · exact ih (n / 10) (Nat.div_lt_self (by omega) (by omega)) c hc

/-- Every character of the integer-to-string conversion is a sign or a
decimal digit. -/
theorem intToString_mem (n : Int) : ∀ c ∈ (intToString n).data, c ∈ "-0123456789".data := by
  have hsub : ∀ c ∈ "0123456789".data, c ∈ "-0123456789".data := by
    have hexp : ("-0123456789".data) = '-' :: "0123456789".data := by decide
    intro c hc
    rw [hexp]
    exact List.mem_cons_of_mem _ hc
  unfold intToString
  split
  · intro c hc
    rw [strData_append] at hc
    simp only [List.mem_append] at hc
    rcases hc with hc | hc
    · have : c = '-' := by simpa using hc
      subst this
      decide
    · have hc' : c ∈ natToRevDigits n.natAbs := by
        simpa [String.mk] using (List.mem_reverse.mp (by simpa [String.mk] using hc))
      exact hsub c (natToRevDigits_mem _ c hc')
  · intro c hc
    have hc' : c ∈ natToRevDigits n.natAbs := by
      simpa [String.mk] using (List.mem_reverse.mp (by simpa [String.mk] using hc))
    exact hsub c (natToRevDigits_mem _ c hc')

/-- No JSON value stringifies to the bundle-timeout message: `null`,
booleans, numbers, strings, arrays and objects all render with a first
character (or character set) that the timeout message does not match. -/
theorem jsonStringify_ne_timeout (v : Json) :
    jsonStringify v ≠ "Bundle confirmation timeout" := by
  cases v with
  | null =>
    rw [show jsonStringify Json.null = "null" from by simp [jsonStringify]]
    decide
  | bool b =>
    cases b
    · rw [show jsonStringify (Json.bool false) = "false" from by simp [jsonStringify]]
      decide
    · rw [show jsonStringify (Json.bool true) = "true" from by simp [jsonStringify]]
      decide
  | num n =>
    rw [show jsonStringify (Json.num n) = intToString n from by simp [jsonStringify]]
    intro h
    have hd : (intToString n).data = "Bundle confirmation timeout".data :=
      congrArg String.data h
    have hB : 'B' ∈ (intToString n).data := by
      rw [hd]
      decide
    have := intToString_mem n 'B' hB
    exact absurd this (by decide)
  | str s =>
    intro h
    have hd := congrArg String.data h
    rw [show jsonStringify (Json.str s) = "\"" ++ (jsonEscape s ++ "\"") from by
      simp [jsonStringify, String.append_assoc]] at hd
    rw [strData_append] at hd
    have : '"' = 'B' := by
      have := congrArg List.head? hd
      simpa using this
    exact absurd this (by decide)
  | arr elems =>
    intro h
    have hd := congrArg String.data h
    rw [show jsonStringify (Json.arr elems) =
        "[" ++ (String.intercalate "," (elems.attach.map fun e => jsonStringify e.1) ++ "]") from by
      simp [jsonStringify, String.append_assoc]] at hd
    rw [strData_append] at hd
    have : '[' = 'B' := by
      have := congrArg List.head? hd
      simpa using this
    exact absurd this (by decide)
  | obj fields =>
    intro h
    have hd := congrArg String.data h
    rw [show jsonStringify (Json.obj fields) =
        "\x7b" ++ (String.intercalate ","
          (fields.attach.map fun f =>
            "\"" ++ jsonEscape f.1.1 ++ "\":" ++ jsonStringify f.1.2) ++ "\x7d") from by
      simp [jsonStringify, String.append_assoc]] at hd
    rw [strData_append] at hd
    have : '\x7b' = 'B' := by
      have := congrArg List.head? hd
      simpa using this
    exact absurd this (by decide)

/-! ## Bundle-confirmation polling lemmas -/

/-- A poll tick yields either a success result without error or a failure
result carrying the stringified on-chain error. -/
theorem pollTickOutcome_spec (env : PollEnv) (bundleId : String) (k : Nat)
    (r : JitoBundleResult) (h : pollTickOutcome env bundleId k = some r) :
    (r.success = true ∧ r.error = none) ∨ (r.success = false ∧ (r.error).isSome = true) := by
  unfold pollTickOutcome at h
  repeat' split at h
  all_goals try cases h
  all_goals simp_all

/-- When no poll tick ever reaches a terminal outcome, the polling loop
returns the distinct timeout failure. -/
theorem waitLoop_timeout (env : PollEnv) (bundleId : String) (timeoutMs pollIntervalMs : Nat)
    (h : ∀ k, pollTickOutcome env bundleId k = none) :
    ∀ k elapsed, waitLoop env bundleId timeoutMs pollIntervalMs k elapsed =
      { bundleId := bundleId, success := false, error := some "Bundle confirmation timeout" } := by
  intro k elapsed
  generalize hfuel : timeoutMs - elapsed = fuel
  induction fuel using Nat.strong_induction_on generalizing k elapsed with
  | _ fuel ih =>
    unfold waitLoop
    split
    · rename_i hlt
      rw [h k]
      exact ih (timeoutMs - (elapsed + 1000 + pollIntervalMs + env.netDelay k))
        (by omega) (k + 1) _ rfl
    · rfl

/-- Any failure result of the polling loop carries an error message. -/
theorem waitLoop_failure_has_error (env : PollEnv) (bundleId : String)
    (timeoutMs pollIntervalMs : Nat) :
    ∀ k elapsed, (waitLoop env bundleId timeoutMs pollIntervalMs k elapsed).success = false →
      ((waitLoop env bundleId timeoutMs pollIntervalMs k elapsed).error).isSome = true := by
  intro k elapsed
  generalize hfuel : timeoutMs - elapsed = fuel
  induction fuel using Nat.strong_induction_on generalizing k elapsed with
  | _ fuel ih =>
    unfold waitLoop
    split
    · rename_i hlt
      cases htick : pollTickOutcome env bundleId k with
      | none =>
        exact ih (timeoutMs - (elapsed + 1000 + pollIntervalMs + env.netDelay k))
          (by omega) (k + 1) _ rfl
      | some r =>
        intro hfalse
        rcases pollTickOutcome_spec env bundleId k r htick with ⟨hs, _⟩ | ⟨_, he⟩
        · rw [hs] at hfalse
          cases hfalse
        · exact he
    · intro _
      rfl

/-- C7: a relay that never reports a terminal status within the timeout
yields `success = false` with the distinct message
`'Bundle confirmation timeout'`, which no on-chain error payload (rendered
through `JSON.stringify`) can equal. -/
theorem timeout_distinctness (env : PollEnv) (bundleId : String)
    (timeoutMs pollIntervalMs : Nat)
    (h : ∀ k, pollTickOutcome env bundleId k = none) :
    waitForBundleConfirmation env bundleId timeoutMs pollIntervalMs =
      { bundleId := bundleId, success := false
        error := some "Bundle confirmation timeout" } ∧
    ∀ e : Json, jsonStringify e ≠ "Bundle confirmation timeout" :=
  ⟨waitLoop_timeout env bundleId timeoutMs pollIntervalMs h 0 0, jsonStringify_ne_timeout⟩

/-- C7 witness: a relay with no record of the bundle, polled with a
5-second timeout. -/
theorem timeout_distinctness_witness :
    (∀ k, pollTickOutcome pollEnvW7 "bundleW7" k = none) ∧
    (waitForBundleConfirmation pollEnvW7 "bundleW7" 5000 2000 =
      { bundleId := "bundleW7", success := false
        error := some "Bundle confirmation timeout" } ∧
    ∀ e : Json, jsonStringify e ≠ "Bundle confirmation timeout") :=
  ⟨fun _ => rfl, timeout_distinctness pollEnvW7 "bundleW7" 5000 2000 fun _ => rfl⟩

/-! ## Serialization lemmas -/

/-- Sixty-four-byte signatures flatten to `64 * count` bytes. -/
theorem flatten_length_sig64 (sigs : List (List Nat)) (h : ∀ s ∈ sigs, s.length = 64) :
    sigs.flatten.length = 64 * sigs.length := by
  induction sigs with
  | nil => simp
  | cons s rest ih =>
    simp only [List.flatten_cons, List.length_append, List.length_cons]
    rw [h s (by simp), ih fun x hx => h x (by simp [hx])]
    ring

/-- Chunking recovers a flattened list of 64-byte signatures. -/
theorem sigChunks_flatten (sigs : List (List Nat)) (h : ∀ s ∈ sigs, s.length = 64) :
    sigChunks sigs.length sigs.flatten = sigs := by
  induction sigs with
  | nil => rfl
  | cons s rest ih =>
    have hs : s.length = 64 := h s (by simp)
    simp only [List.length_cons, List.flatten_cons, sigChunks]
    rw [List.take_left' hs, List.drop_left' hs, ih fun x hx => h x (by simp [hx])]

/-- Every serialized byte of a well-formed transaction is a valid byte. -/
theorem serialize_bytes_lt (tx : VersionedTransaction) (h : ValidTx tx) :
    ∀ b ∈ tx.serialize, b < 256 := by
  intro b hb
  unfold VersionedTransaction.serialize at hb
  simp only [List.mem_append] at hb
  rcases hb with (hb | hb) | hb
  · exact encodeCompactU16_bytes_lt _ b hb
  · obtain ⟨s, hs, hbs⟩ := List.mem_flatten.mp hb
    exact (h.1 s hs).2 b hbs
  · exact h.2 b hb

/-- Deserializing the serialization of a well-formed transaction recovers
its signatures and message bytes (the parsed message's structured views
are the parse defaults). -/
theorem deserialize_serialize (tx : VersionedTransaction) (h : ValidTx tx) :
    VersionedTransaction.deserialize tx.serialize =
      some { signatures := tx.signatures
             message := { version := if 128 ≤ tx.message.bytes.headD 0 then .v0 else .legacy
                          recentBlockhash := ""
                          addressTableLookups := []
                          bytes := tx.message.bytes } } := by
  have hflat : tx.signatures.flatten.length = 64 * tx.signatures.length :=
    flatten_length_sig64 _ fun s hs => (h.1 s hs).1
  have hflat' : tx.signatures.flatten.length = tx.signatures.length * 64 := by
    rw [hflat]
    ring
  have hle : tx.signatures.length * 64 ≤ (tx.signatures.flatten ++ tx.message.bytes).length := by
    simp only [List.length_append]
    omega
  unfold VersionedTransaction.deserialize VersionedTransaction.serialize
  rw [List.append_assoc, decodeCompactU16_encode]
  dsimp only
  rw [if_pos hle]
  rw [List.take_left' hflat', List.drop_left' hflat',
    sigChunks_flatten _ fun s hs => (h.1 s hs).1]

/-- C5: the compatibility guard classifies any oversized or
lookup-table-bearing transaction as incompatible, with a reason string.
(The guard is a pure classifier by construction: the source only reads the
transaction and returns a fresh result object.) -/
theorem guard_rejects_incompatible (tx : VersionedTransaction)
    (h : 1232 < tx.serialize.length ∨
      (tx.message.version = .v0 ∧ tx.message.addressTableLookups ≠ [])) :
    (isJitoCompatible tx).compatible = false ∧
    ((isJitoCompatible tx).reason).isSome = true := by
  unfold isJitoCompatible
  rcases h with h | h
  · rw [if_pos h]
    simp
  · by_cases hsize : 1232 < tx.serialize.length
    · rw [if_pos hsize]
      simp
    · rw [if_neg hsize, if_pos h]
      simp

set_option maxRecDepth 20000 in
/-- C5 witness: a 1301-byte transaction is rejected with a reason. -/
theorem guard_rejects_incompatible_witness :
    (1232 < txBigC5.serialize.length) ∧
    ((isJitoCompatible txBigC5).compatible = false ∧
      ((isJitoCompatible txBigC5).reason).isSome = true) :=
  ⟨by decide, guard_rejects_incompatible txBigC5 (Or.inl (by decide))⟩

/-- C6: serializing, base64-encoding, decoding and deserializing a valid
transaction yields a transaction with identical message bytes, and
`verifyTransactionBase64` reports it valid. -/
theorem roundtrip_idempotence (tx : VersionedTransaction) (h : ValidTx tx) :
    (∃ tx2, (b64Decode (b64Encode tx.serialize)).bind VersionedTransaction.deserialize =
        some tx2 ∧ tx2.message.serialize = tx.message.serialize) ∧
    (verifyTransactionBase64 tx).isValid = true := by
  have hbytes := serialize_bytes_lt tx h
  have hb64 := b64Decode_b64Encode _ hbytes
  have hdes := deserialize_serialize tx h
  constructor
  · refine ⟨{ signatures := tx.signatures
              message := { version := if 128 ≤ tx.message.bytes.headD 0 then .v0 else .legacy
                           recentBlockhash := ""
                           addressTableLookups := []
                           bytes := tx.message.bytes } }, ?_, rfl⟩
    rw [hb64]
    exact hdes
  · unfold verifyTransactionBase64
    dsimp only
    rw [hb64]
    dsimp only
    rw [hdes]
    dsimp only
    simp [VersionedMessage.serialize]

/-- C6 witness: a concrete valid transaction round-trips. -/
theorem roundtrip_idempotence_witness :
    ValidTx txRoundW ∧
    ((∃ tx2, (b64Decode (b64Encode txRoundW.serialize)).bind VersionedTransaction.deserialize =
        some tx2 ∧ tx2.message.serialize = txRoundW.message.serialize) ∧
      (verifyTransactionBase64 txRoundW).isValid = true) :=
  ⟨by decide, roundtrip_idempotence txRoundW (by decide)⟩

/-! ## Bundle pipeline lemmas -/

/-- The tip builder invoked with an explicit blockhash compiles its legacy
message against exactly that blockhash. -/
theorem createTipTransaction_some (env : TipEnv) (pk : String) (lam : Nat) (bh : String) :
    createTipTransaction env pk lam (some bh) =
      .ok (VersionedTransaction.ofMessage (compileToLegacyMessage pk bh
        [systemTransferIx pk
          (JITO_TIP_ACCOUNTS.getD (env.randomTipIndex % JITO_TIP_ACCOUNTS.length) "") lam])) :=
  rfl

/-- C2: whenever the bundle run reaches a `sendBundle` request, every
transaction in the submitted bundle after the first carries the blockhash
of the first-built (swap) transaction — the shared blockhash the hook
extracted from it. -/
theorem bundle_shared_blockhash (env : BundleHookEnv) (config : AtomicOperationConfig)
    (swapRes : SwapBuildResult)
    (hswap : buildJupiterSwapTransaction env.jupiter env.publicKey "SOL" "JUP"
      config.solAmount 50 = .ok swapRes)
    (txs : List VersionedTransaction)
    (hev : BundleEvent.bundleSubmitted txs ∈ (executeAtomic env config).2) :
    ∀ t ∈ txs.drop 1,
      t.message.recentBlockhash = swapRes.transaction.message.recentBlockhash := by
  unfold executeAtomic at hev
  split at hev
  · simp at hev
  · rw [hswap] at hev
    dsimp only at hev
    split at hev
    · simp at hev
    · split at hev
      · simp at hev
      · split at hev
        · simp at hev
        · rename_i transferTx htransfer
          rw [createTipTransaction_some] at hev
          dsimp only at hev
          split at hev
          · simp at hev
          · unfold submitAndConfirmBundle at hev
            split at hev
            · simp at hev
            · dsimp only at hev
              split at hev
              all_goals
                simp only [List.mem_cons, List.mem_singleton] at hev
                rcases hev with hev | hev | hev
                · exact absurd hev (by simp)
                · rw [show txs = _ from by
                    have := hev
                    simp only [BundleEvent.bundleSubmitted.injEq] at this
                    exact this]
                  intro t ht
                  simp only [List.enum, List.enumFrom, List.map, List.drop] at ht
                  simp only [List.mem_singleton] at ht
                  subst ht
                  rfl
                · simp at hev

/-- C2 witness: a concrete environment whose run reaches submission; the
only transaction after the first is the tip, carrying the swap's
blockhash. -/
theorem bundle_shared_blockhash_witness :
    (buildJupiterSwapTransaction envC2.jupiter envC2.publicKey "SOL" "JUP"
        cfgC2.solAmount 50 = .ok swapResC2 ∧
      BundleEvent.bundleSubmitted txsC2 ∈ (executeAtomic envC2 cfgC2).2) ∧
    (∀ t ∈ txsC2.drop 1,
      t.message.recentBlockhash = swapResC2.transaction.message.recentBlockhash) :=
  ⟨⟨by rfl, by decide⟩,
    bundle_shared_blockhash envC2 cfgC2 swapResC2 (by rfl) txsC2 (by decide)⟩

/-- Validation flags any bundle containing an oversized or
lookup-table-bearing transaction. -/
theorem validateBundle_violation : ∀ (txs : List VersionedTransaction) (i : Nat),
    (∃ t ∈ txs, 1232 < t.serialize.length ∨
      (t.message.version = .v0 ∧ t.message.addressTableLookups ≠ [])) →
    (validateBundle i txs).isSome = true := by
  intro txs
  induction txs with
  | nil =>
    intro i h
    simp at h
  | cons tx rest ih =>
    intro i h
    unfold validateBundle
    split
    · simp
    · split
      · simp
      · rename_i h1 h2
        obtain ⟨t, ht, hviol⟩ := h
        simp only [List.mem_cons] at ht
        rcases ht with rfl | ht
        · rcases hviol with hv | hv
          · exact absurd hv h1
          · exact absurd hv h2
        · exact ih (i + 1) ⟨t, ht, hviol⟩

set_option maxRecDepth 20000 in
/-- C3 counterexample: with an oversized transfer instruction, the run
passes the oversized transaction to the wallet's batch signing request —
signing is requested before validation aborts the run (with an error,
before submission). -/
theorem validation_precedes_signing_counterexample :
    signRequestViolation (executeAtomic envBadC3 cfgC2).2 = true ∧
    (executeAtomic envBadC3 cfgC2).1.success = false ∧
    ((executeAtomic envBadC3 cfgC2).1.error).isSome = true := by
  decide

/-- C3 amended: validation precedes *submission*: a bundle containing an
oversized or lookup-table-bearing transaction is never submitted to the
relay — no `sendBundle` request occurs — and the run returns a failure
result with a descriptive error (signing, however, has already been
requested by then). -/
theorem validation_precedes_submission (env : RelayEnv) (txs : List VersionedTransaction)
    (timeoutMs : Nat)
    (h : ∃ t ∈ txs, 1232 < t.serialize.length ∨
      (t.message.version = .v0 ∧ t.message.addressTableLookups ≠ [])) :
    (submitAndConfirmBundle env txs timeoutMs).2 = [] ∧
    (submitAndConfirmBundle env txs timeoutMs).1.success = false ∧
    ((submitAndConfirmBundle env txs timeoutMs).1.error).isSome = true := by
  have hval := validateBundle_violation txs 0 h
  unfold submitAndConfirmBundle
  cases hv : validateBundle 0 txs with
  | none =>
    rw [hv] at hval
    simp at hval
  | some msg =>
    simp only [hv]
    simp

set_option maxRecDepth 20000 in
/-- C3 amended witness: a single oversized transaction is rejected before
any submission request. -/
theorem validation_precedes_submission_witness :
    (∃ t ∈ ([txBigC5] : List VersionedTransaction), 1232 < t.serialize.length ∨
      (t.message.version = .v0 ∧ t.message.addressTableLookups ≠ [])) ∧
    ((submitAndConfirmBundle relayEnvC3W [txBigC5] 60000).2 = [] ∧
      (submitAndConfirmBundle relayEnvC3W [txBigC5] 60000).1.success = false ∧
      (((submitAndConfirmBundle relayEnvC3W [txBigC5] 60000).1.error).isSome = true)) :=
  have hmem : txBigC5 ∈ ([txBigC5] : List VersionedTransaction) := List.mem_singleton.mpr rfl
  have hsize : 1232 < txBigC5.serialize.length := by decide
  ⟨⟨txBigC5, hmem, Or.inl hsize⟩,
    validation_precedes_submission relayEnvC3W [txBigC5] 60000 ⟨txBigC5, hmem, Or.inl hsize⟩⟩

/-! ## No-unhandled-fault lemmas -/

/-- Any failing sequential run carries an error message and a failure
index. -/
theorem seqLoop_failure_fields (env : SeqEnv) :
    ∀ (rest : List TransactionToBuild) (i : Nat) (results : List TransactionProgress),
    (seqLoop env rest i results).success = false →
    ((seqLoop env rest i results).error).isSome = true ∧
    ((seqLoop env rest i results).failedAtIndex).isSome = true := by
  intro rest
  induction rest with
  | nil =>
    intro i results h
    cases h
  | cons b rest ih =>
    intro i results
    simp only [seqLoop]
    split
    · exact ih (i + 1) _
    · rename_i hne
      intro _
      constructor
      · rcases (runStep_spec env i b).2 with hc | ⟨_, he⟩
        · exact absurd hc hne
        · exact he
      · rfl

/-- C9: neither executor propagates a fault for any environment — both
are total functions of the injected outcomes (the source's catch-all
try/catch), and every failure result carries an error message (and, for
the sequential executor, a failure index). -/
theorem no_unhandled_fault (benv : RelayEnv) (btxs : List VersionedTransaction)
    (tms : Nat) (senv : SeqEnv) (builders : List TransactionToBuild) :
    ((submitAndConfirmBundle benv btxs tms).1.success = false →
      ((submitAndConfirmBundle benv btxs tms).1.error).isSome = true) ∧
    ((executeTransactionsSequentially senv builders).success = false →
      ((executeTransactionsSequentially senv builders).error).isSome = true ∧
      ((executeTransactionsSequentially senv builders).failedAtIndex).isSome = true) := by
  constructor
  · unfold submitAndConfirmBundle
    split
    · intro _
      rfl
    · dsimp only
      split
      · intro _
        rfl
      · intro h
        exact waitLoop_failure_has_error benv.poll _ tms 2000 0 0 h
  · exact seqLoop_failure_fields senv builders 0 (initialProgress builders)

/-- C9 witness: a throwing relay submission and a failing builder both
surface as failure results with messages, not exceptions. -/
theorem no_unhandled_fault_witness :
    ((submitAndConfirmBundle relayEnvW9 [] 1000).1.success = false ∧
      (((submitAndConfirmBundle relayEnvW9 [] 1000).1.error).isSome = true)) ∧
    ((executeTransactionsSequentially seqEnvOk buildersW4).success = false ∧
      ((executeTransactionsSequentially seqEnvOk buildersW4).error).isSome = true ∧
      ((executeTransactionsSequentially seqEnvOk buildersW4).failedAtIndex).isSome = true) :=
  ⟨⟨by decide, (no_unhandled_fault relayEnvW9 [] 1000 seqEnvOk buildersW4).1 (by decide)⟩,
    ⟨by decide, (no_unhandled_fault relayEnvW9 [] 1000 seqEnvOk buildersW4).2 (by decide)⟩⟩

/-! ## Swap-amount noninterference -/

/-- C8: the swap builder's result does not depend on the caller-supplied
amount — two invocations differing only in the amount are identical —
and the SOL amount it actually quotes is derived from the policy minimum
of 250 JUP with the 5% buffer at current prices. -/
theorem swap_amount_noninterference (env : JupiterEnv) (pk tin tout : String)
    (a1 a2 : ℚ) (s : Nat) :
    buildJupiterSwapTransaction env pk tin tout a1 s =
      buildJupiterSwapTransaction env pk tin tout a2 s ∧
    (∀ jp sp : ℚ, env.prices = .ok (jp, sp) →
      calculateRequiredSolForMinimumJup env =
        .ok { solAmount := MINIMUM_JUP_OUTPUT * BUFFER_PERCENTAGE * jp / sp
              jupPrice := jp
              solPrice := sp
              targetJupAmount := MINIMUM_JUP_OUTPUT * BUFFER_PERCENTAGE
              minimumJupOutput := MINIMUM_JUP_OUTPUT }) := by
  constructor
  · rfl
  · intro jp sp hok
    unfold calculateRequiredSolForMinimumJup
    rw [hok]
    rfl

/-- C8 witness: with JUP at $0.50 and SOL at $100, any two amounts give
the same build result and the quoted SOL amount is 21/16 (262.5 JUP worth
of SOL). -/
theorem swap_amount_noninterference_witness :
    (buildJupiterSwapTransaction envC8 "PK" "SOL" "JUP" 5 50 =
      buildJupiterSwapTransaction envC8 "PK" "SOL" "JUP" 7 50) ∧
    calculateRequiredSolForMinimumJup envC8 =
      .ok { solAmount := 21 / 16, jupPrice := 1 / 2, solPrice := 100
            targetJupAmount := 525 / 2, minimumJupOutput := 250 } :=
  ⟨(swap_amount_noninterference envC8 "PK" "SOL" "JUP" 5 7 50).1, by
    have h := (swap_amount_noninterference envC8 "PK" "SOL" "JUP" 5 7 50).2
      (1 / 2) 100 rfl
    rw [h]
    simp only [Except.ok.injEq, CalcResult.mk.injEq, MINIMUM_JUP_OUTPUT, BUFFER_PERCENTAGE]
    norm_num⟩

end JupHedge
